import Mathlib

/-!
Verification of `generate_proxy_config.py`, a single-pass pipeline that
invokes a proxy-listing tool per region, parses credentials and
`host,ip,port` server records from the captured text, and emits a Clash
configuration document.

The Python source is shallowly embedded: each pipeline function becomes a
pure Lean function over the captured region outputs; the environment (the
result of invoking the external tool for each region) is a parameter.
-/

namespace ProxyConfig

/-- The whitespace characters stripped by Python's `str.strip()` and matched
by `\s` in the regexes used by the script (ASCII fragment). -/
def isSpace (c : Char) : Bool :=
  c = ' ' || c = '\t' || c = '\n' || c = '\r' || c = '\x0b' || c = '\x0c'

/-- Python `str.strip()`: remove leading and trailing whitespace. -/
def pyStrip (s : String) : String :=
  String.mk (((s.data.dropWhile isSpace).reverse.dropWhile isSpace).reverse)

/-- Helper for `pySplit`: accumulate the current field (reversed). -/
def pySplitAux (sep : Char) : List Char → List Char → List (List Char)
  | [], acc => [acc.reverse]
  | c :: cs, acc =>
      if c = sep then acc.reverse :: pySplitAux sep cs []
      else pySplitAux sep cs (c :: acc)

/-- Python `s.split(sep)` for a one-character separator: fields between
occurrences of `sep`, empty fields kept (`''.split(',') == ['']`). -/
def pySplit (sep : Char) (s : String) : List String :=
  (pySplitAux sep s.data []).map String.mk

/-- Python `s.startswith(pre)`. -/
def pyStartsWith (pre s : String) : Bool :=
  pre.data.isPrefixOf s.data

/-- Python `s[:n]` for `n ≥ 0` (the whole string when shorter). -/
def pyTake (n : Nat) (s : String) : String :=
  String.mk (s.data.take n)

def isDigitChar (c : Char) : Bool := '0' ≤ c && c ≤ '9'

def digitVal (c : Char) : Nat := c.toNat - '0'.toNat

/-- Digit groups of a Python decimal literal after the first digit:
underscores are only allowed between digits. -/
def pyDigitsCore (acc : Nat) : List Char → Option Nat
  | [] => some acc
  | '_' :: [] => none
  | '_' :: c :: cs =>
      if isDigitChar c then pyDigitsCore (acc * 10 + digitVal c) cs else none
  | c :: cs =>
      if isDigitChar c then pyDigitsCore (acc * 10 + digitVal c) cs else none

/-- Value of a non-empty digit string (with Python's underscore rule). -/
def pyDigitsVal : List Char → Option Nat
  | [] => none
  | c :: cs => if isDigitChar c then pyDigitsCore (digitVal c) cs else none

/-- Python `int(s)` for base 10: strip whitespace, optional sign, decimal
digits (underscores allowed between digits); `none` models `ValueError`. -/
def pyInt (s : String) : Option Int :=
  match (pyStrip s).data with
  | '+' :: rest => (pyDigitsVal rest).map Int.ofNat
  | '-' :: rest => (pyDigitsVal rest).map (fun n => -(Int.ofNat n))
  | rest => (pyDigitsVal rest).map Int.ofNat

/-- A normalized server record (`{'host': ..., 'ip': ..., 'port': ...}`
appended by `parse_proxy_servers`; `port` is already an `int`). -/
structure ServerRecord where
  host : String
  ip : String
  port : Int
deriving DecidableEq

/-- Semantics of `re.match(r'^[^,]+,[^,]+,[^,]+$', line)`: the line splits at
commas into exactly three non-empty parts. -/
def recordPatternMatches (line : String) : Bool :=
  match pySplit ',' line with
  | [a, b, c] => !a.isEmpty && !b.isEmpty && !c.isEmpty
  | _ => false

/-- Body of the per-line record extraction in `parse_proxy_servers`
(src lines 107-124): regex gate, split into three fields, strip each,
validate the port as an integer in [1, 65535]. `none` models every skipped
or dropped line (warnings are prints, never raised errors). -/
def parseServerLine (line : String) : Option ServerRecord :=
  if recordPatternMatches line then
    match pySplit ',' line with
    | [h0, i0, p0] =>
        let host := pyStrip h0
        let ip := pyStrip i0
        let port := pyStrip p0
        match pyInt port with
        | some p => if 1 ≤ p ∧ p ≤ 65535 then some ⟨host, ip, p⟩ else none
        | none => none
    | _ => none
  else none

/-- The port-validation condition applied to a candidate line's third
field: stripped, it parses as a Python base-10 integer in [1, 65535]. -/
def portFieldOk (line : String) : Bool :=
  match pySplit ',' line with
  | [_, _, p0] =>
      match pyInt (pyStrip p0) with
      | some p => decide (1 ≤ p ∧ p ≤ 65535)
      | none => false
  | _ => false

/-- `parse_proxy_servers` (src lines 94-132) applied to the text content of
one region file: iterate over lines, strip, skip empty and `#`-comment
lines, and keep every line that yields a record. -/
def parse_proxy_servers (content : String) : List ServerRecord :=
  (pySplit '\n' content).filterMap (fun raw =>
    let line := pyStrip raw
    if line = "" ∨ pyStartsWith "#" line = true then none
    else parseServerLine line)

/-- Semantics of `re.search(label ++ r'\s*(\S+)', content)` for a literal
label: scan positions left to right; at the first position where the label
is a prefix and, after skipping whitespace, at least one non-space character
follows, return the maximal non-space run (the `\S+` capture group). -/
def scanToken (lbl : List Char) : List Char → Option (List Char)
  | [] => none
  | c :: cs =>
      if lbl.isPrefixOf (c :: cs) then
        let tok := (((c :: cs).drop lbl.length).dropWhile isSpace).takeWhile
          (fun ch => !(isSpace ch))
        if tok = [] then scanToken lbl cs else some tok
      else scanToken lbl cs

/-- `re.search(r'Proxy login:\s*(\S+)', content)`, the captured group. -/
def findLogin (content : String) : Option String :=
  (scanToken "Proxy login:".data content.data).map String.mk

/-- `re.search(r'Proxy password:\s*(\S+)', content)`, the captured group. -/
def findPassword (content : String) : Option String :=
  (scanToken "Proxy password:".data content.data).map String.mk

/-- One iteration of the loop in `parse_proxy_credentials` (src lines 70-89)
on the (login, password) state: a match is kept only when the field is still
empty (`if login_match and not login`). -/
def credStep (st : String × String) (content : String) : String × String :=
  let login := match findLogin content with
    | some t => if st.1 = "" then t else st.1
    | none => st.1
  let password := match findPassword content with
    | some t => if st.2 = "" then t else st.2
    | none => st.2
  (login, password)

/-- The scan loop of `parse_proxy_credentials`: fold `credStep` over the
region captures in order, stopping early once both fields are non-empty
(`if login and password: break`). -/
def credLoop : String × String → List String → String × String
  | st, [] => st
  | st, c :: cs =>
      let st' := credStep st c
      if st'.1 = "" ∨ st'.2 = "" then credLoop st' cs else st'

/-- `parse_proxy_credentials` (src lines 64-92) applied to the captured
contents of the collected region files, in region iteration order. -/
def parse_proxy_credentials (captures : List String) : String × String :=
  credLoop ("", "") captures

/-- One emitted proxy mapping (`proxy_config` in `generate_clash_config`,
src lines 165-175). -/
structure ProxyEntry where
  name : String
  type : String
  server : String
  port : Int
  username : String
  password : String
  tls : Bool
  skipCertVerify : Bool
  sni : String
deriving DecidableEq

/-- `self.region_map.get(region, region)` with the table from `__init__`
(src lines 16-20). -/
def region_map (r : String) : String :=
  if r = "AM" then "美国"
  else if r = "AS" then "新加坡"
  else if r = "EU" then "挪威"
  else r

/-- The entry built for one server in `generate_clash_config` (src lines
161-175): name is display label + `-` + first three characters of the host
(`server['host'][:3] if len(...) >= 3 else server['host']`, which is
`host[:3]` in both cases); fixed http/tls fields; the global credentials. -/
def mkProxyEntry (region login password : String) (s : ServerRecord) : ProxyEntry :=
  { name := region_map region ++ "-" ++ pyTake 3 s.host
    type := "http"
    server := s.ip
    port := s.port
    username := login
    password := password
    tls := true
    skipCertVerify := false
    sni := s.host }

/-- The `proxies` list assembled by `generate_clash_config` (src lines
145-178): for each collected region file in order, every parsed server
becomes one entry, appended in line order. -/
def generate_clash_config (region_files : List (String × String))
    (login password : String) : List ProxyEntry :=
  (region_files.map (fun rc =>
    (parse_proxy_servers rc.2).map (mkProxyEntry rc.1 login password))).flatten

/-- Modelled from the spec: the serialization of one entry by the yaml
library (`yaml.dump` with `default_flow_style=False`, `indent=2`; keys
emitted in sorted order), which is not part of the repository's source.
Any deterministic rendering; plain scalars. -/
def serializeEntry (e : ProxyEntry) : String :=
  "- name: " ++ e.name ++ "\n  password: " ++ e.password ++
  "\n  port: " ++ toString e.port ++ "\n  server: " ++ e.server ++
  "\n  skip-cert-verify: " ++ (if e.skipCertVerify then "true" else "false") ++
  "\n  sni: " ++ e.sni ++ "\n  tls: " ++ (if e.tls then "true" else "false") ++
  "\n  type: " ++ e.type ++ "\n  username: " ++ e.username ++ "\n"

/-- Modelled from the spec: the bytes `yaml.dump(clash_config, ...)` writes
to `clash-config.yml` (src lines 181-182); an empty list is rendered as the
flow scalar `[]`. -/
def serializeConfig (proxies : List ProxyEntry) : String :=
  if proxies = [] then "proxies: []\n"
  else "proxies:\n" ++ String.join (proxies.map serializeEntry)

/-- The outcome of attempting one region's invocation (`open` plus
`subprocess.run ./opera-proxy -country R -list-proxies`, src lines 47-50):
`raised` records whether the attempt raised an exception (e.g. `OSError` /
`FileNotFoundError`); such an exception is never an instance of
`subprocess.CalledProcessError` — `subprocess.run` is called without
`check=True`, so it never raises that class and the per-region handler at
src lines 58-60 is dead code. When `raised` is false the attempt completed
with the given process exit status and captured standard output. -/
structure RegionResult where
  raised : Bool
  returncode : Int
  output : String
deriving DecidableEq

/-- The fixed region list of `generate_proxy_configs` (src line 41). -/
def regions : List String := ["EU", "AS", "AM"]

/-- The collection loop of `generate_proxy_configs` (src lines 44-60) over
the remaining regions: a region that completes with non-zero exit status is
skipped (logged, loop continues); a region whose attempt raises is not
caught — the dead `except subprocess.CalledProcessError` clause does not
match — so the exception propagates out of the loop, modelled by `none`,
discarding the regions collected so far. -/
def collectLoop (env : String → RegionResult) :
    List String → Option (List (String × String))
  | [] => some []
  | r :: rs =>
      if (env r).raised = true then none
      else if (env r).returncode = 0 then
        (collectLoop env rs).map (fun rest => (r, (env r).output) :: rest)
      else collectLoop env rs

/-- `generate_proxy_configs` (src lines 38-62): invoke the tool per region;
keep `(region, captured stdout)` for regions that complete with exit status
zero, in region order (dict insertion order); `none` models an uncaught
invocation exception propagating out of the method. -/
def generate_proxy_configs (env : String → RegionResult) :
    Option (List (String × String)) :=
  collectLoop env regions

/-- Observable outcome of one run: the boolean returned by `run` (mapped to
exit status 0/1 at the bottom of the script), the assembled `proxies` list
when `generate_clash_config` was reached, and the bytes written to
`clash-config.yml` when it was written. -/
structure RunOutcome where
  success : Bool
  document : Option (List ProxyEntry)
  written : Option String
deriving DecidableEq

/-- The login used for emission (src lines 221-224): when either credential
is missing, `login = login or "default_user"`. -/
def effectiveLogin (creds : String × String) : String :=
  if creds.1 = "" ∨ creds.2 = ""
  then (if creds.1 = "" then "default_user" else creds.1) else creds.1

/-- The password used for emission (src lines 221-225): when either
credential is missing, `password = password or "default_pass"`. -/
def effectivePassword (creds : String × String) : String :=
  if creds.1 = "" ∨ creds.2 = ""
  then (if creds.2 = "" then "default_pass" else creds.2) else creds.2

/-- The `proxies` list the pipeline emits for the collected region files:
credentials parsed from the captures in order, per-field defaults
substituted, then `generate_clash_config`. -/
def runProxies (region_files : List (String × String)) : List ProxyEntry :=
  generate_clash_config region_files
    (effectiveLogin (parse_proxy_credentials (region_files.map Prod.snd)))
    (effectivePassword (parse_proxy_credentials (region_files.map Prod.snd)))

/-- `run` (src lines 205-240) after the download step: abort when no region
was collected (`return False`, nothing written); otherwise parse
credentials, substitute defaults when missing, build and write the Clash
config, and report success. -/
def run_pipeline (region_files : List (String × String)) : RunOutcome :=
  if region_files = [] then ⟨false, none, none⟩
  else ⟨true, some (runProxies region_files),
    some (serializeConfig (runProxies region_files))⟩

/-- `run`: the download step either fails (the re-raised error is caught by
the outer `except Exception` at src lines 236-240, returning `False` with
nothing written) or succeeds; an exception propagating out of collection
reaches the same outer `except` — `return False`, exit status 1, nothing
written; otherwise the pipeline runs on the collected region files. -/
def run (downloadOk : Bool) (env : String → RegionResult) : RunOutcome :=
  if downloadOk then
    match generate_proxy_configs env with
    | some rf => run_pipeline rf
    | none => ⟨false, none, none⟩
  else ⟨false, none, none⟩

/-- `exit(0 if success else 1)` (src line 245). -/
def exitCode (o : RunOutcome) : Nat :=
  if o.success then 0 else 1

/-- Environment in which only region EU is collected and its capture holds
no server lines and no credentials. -/
def envEmptyServers : String → RegionResult := fun r =>
  if r = "EU" then ⟨false, 0, ""⟩ else ⟨false, 1, ""⟩

/-- Environment in which only region EU is collected; its capture holds one
valid server line and no credential lines. -/
def envNoCreds : String → RegionResult := fun r =>
  if r = "EU" then ⟨false, 0, "example.com,1.2.3.4,80\n"⟩ else ⟨false, 1, ""⟩

/-- Environment in which every region's invocation completes with a
non-zero exit status, so no region is collected. -/
def envAllFail : String → RegionResult := fun _ => ⟨false, 1, ""⟩

/-- Environment in which region EU's invocation raises an exception while
the other regions would complete successfully with valid records. -/
def envOneRaises : String → RegionResult := fun r =>
  if r = "EU" then ⟨true, 0, ""⟩
  else if r = "AS"
  then ⟨false, 0, "a.com,1.1.1.1,80\nProxy login: u\nProxy password: p\n"⟩
  else ⟨false, 0, "b.com,2.2.2.2,81\n"⟩

/-- Environment with two same-region records whose hosts share their first
three characters, so the two base names collide. -/
def envDupNames : String → RegionResult := fun r =>
  if r = "EU"
  then ⟨false, 0, "example.com,1.1.1.1,80\nexample.net,2.2.2.2,81\nProxy login: u\nProxy password: p\n"⟩
  else ⟨false, 1, ""⟩

/-- Environment in which regions EU and AS are collected with comment-only
captures; no server record survives. -/
def envEmptyServers2 : String → RegionResult := fun r =>
  if r = "AM" then ⟨false, 1, ""⟩ else ⟨false, 0, "# placeholder\n"⟩

/-- Environment whose EU capture holds one out-of-range-port record and one
valid record. -/
def envPort99999 : String → RegionResult := fun r =>
  if r = "EU"
  then ⟨false, 0, "a.com,1.1.1.1,99999\nb.com,2.2.2.2,8080\nProxy login: u\nProxy password: p\n"⟩
  else ⟨false, 1, ""⟩

/-- Environment for scenario A: three regions, one record each, credentials
only in the first region's capture. -/
def envScenarioA : String → RegionResult := fun r =>
  if r = "EU"
  then ⟨false, 0, "Proxy login: user1\nProxy password: pass1\ne1.com,1.1.1.1,81\n"⟩
  else if r = "AS" then ⟨false, 0, "e2.com,2.2.2.2,82\n"⟩
  else ⟨false, 0, "e3.com,3.3.3.3,83\n"⟩

/-- Environment in which only EU is collected, with credentials and one
record. -/
def env9a : String → RegionResult := fun r =>
  if r = "EU" then ⟨false, 0, "Proxy login: u\nProxy password: p\na.com,1.1.1.1,80\n"⟩
  else ⟨false, 1, ""⟩

/-- Like `env9a` but with a different result for an uncollected, unused
region code, so the two environments differ while their captures agree. -/
def env9b : String → RegionResult := fun r =>
  if r = "ZZ" then ⟨true, 7, "junk"⟩ else env9a r

/-- The entry emitted for `example.com,1.2.3.4,80` in region EU with the
explicit credentials `user1`/`pass1`. -/
def e8 : ProxyEntry := mkProxyEntry "EU" "user1" "pass1" ⟨"example.com", "1.2.3.4", 80⟩

/-- The entry emitted for `example.com,1.2.3.4,80` in region EU with the
placeholder credentials. -/
def e10 : ProxyEntry :=
  mkProxyEntry "EU" "default_user" "default_pass" ⟨"example.com", "1.2.3.4", 80⟩

/-! ### Helper lemmas -/

theorem parseServerLine_port {line : String} {r : ServerRecord}
    (h : parseServerLine line = some r) : 1 ≤ r.port ∧ r.port ≤ 65535 := by
  unfold parseServerLine at h
  split at h
  · split at h
    · dsimp only at h
      split at h
      · split at h
        · cases h
          assumption
        · exact absurd h (by simp)
      · exact absurd h (by simp)
    · exact absurd h (by simp)
  · exact absurd h (by simp)

theorem mem_parse_proxy_servers_port {content : String} {r : ServerRecord}
    (h : r ∈ parse_proxy_servers content) : 1 ≤ r.port ∧ r.port ≤ 65535 := by
  unfold parse_proxy_servers at h
  rcases List.mem_filterMap.mp h with ⟨raw, -, hraw⟩
  dsimp only at hraw
  split at hraw
  · exact absurd hraw (by simp)
  · exact parseServerLine_port hraw

theorem scanToken_ne_nil {lbl : List Char} :
    ∀ {cs tok}, scanToken lbl cs = some tok → tok ≠ [] := by
  intro cs
  induction cs with
  | nil => intro tok h; simp [scanToken] at h
  | cons c cs ih =>
      intro tok h
      rw [scanToken] at h
      split at h
      · dsimp only at h
        split at h
        · exact ih h
        · cases h
          assumption
      · exact ih h

theorem findLogin_ne_empty {c t : String} (h : findLogin c = some t) : t ≠ "" := by
  unfold findLogin at h
  cases hs : scanToken "Proxy login:".data c.data with
  | none => rw [hs] at h; cases h
  | some tok =>
      rw [hs] at h
      cases h
      intro hcontra
      exact scanToken_ne_nil hs (congrArg String.data hcontra)

theorem findPassword_ne_empty {c t : String} (h : findPassword c = some t) : t ≠ "" := by
  unfold findPassword at h
  cases hs : scanToken "Proxy password:".data c.data with
  | none => rw [hs] at h; cases h
  | some tok =>
      rw [hs] at h
      cases h
      intro hcontra
      exact scanToken_ne_nil hs (congrArg String.data hcontra)

theorem credStep_fst_stable {st : String × String} (c : String) (h : st.1 ≠ "") :
    (credStep st c).1 = st.1 := by
  unfold credStep
  cases hfl : findLogin c <;> simp [h]

theorem credStep_snd_stable {st : String × String} (c : String) (h : st.2 ≠ "") :
    (credStep st c).2 = st.2 := by
  unfold credStep
  cases hfl : findPassword c <;> simp [h]

theorem credLoop_fst_stable (caps : List String) :
    ∀ st : String × String, st.1 ≠ "" → (credLoop st caps).1 = st.1 := by
  induction caps with
  | nil => intro st _; rfl
  | cons c cs ih =>
      intro st h
      rw [credLoop]
      have h1 : (credStep st c).1 = st.1 := credStep_fst_stable c h
      split
      · rw [ih _ (by rw [h1]; exact h)]
        exact h1
      · exact h1

theorem credLoop_snd_stable (caps : List String) :
    ∀ st : String × String, st.2 ≠ "" → (credLoop st caps).2 = st.2 := by
  induction caps with
  | nil => intro st _; rfl
  | cons c cs ih =>
      intro st h
      rw [credLoop]
      have h1 : (credStep st c).2 = st.2 := credStep_snd_stable c h
      split
      · rw [ih _ (by rw [h1]; exact h)]
        exact h1
      · exact h1

/-- With an empty login field, the scan keeps the first login token found in
the remaining captures (the `\S+` capture of the first matching region). -/
theorem credLoop_fst_empty (caps : List String) :
    ∀ st : String × String, st.1 = "" →
      (credLoop st caps).1 = (caps.filterMap findLogin).headD "" := by
  induction caps with
  | nil => intro st h; simpa [credLoop] using h
  | cons c cs ih =>
      intro st h
      rw [credLoop]
      cases hfl : findLogin c with
      | none =>
          have h1 : (credStep st c).1 = "" := by
            unfold credStep; simp [hfl, h]
          rw [if_pos (Or.inl h1), ih _ h1]
          simp [List.filterMap_cons, hfl]
      | some t =>
          have ht : t ≠ "" := findLogin_ne_empty hfl
          have h1 : (credStep st c).1 = t := by
            unfold credStep; simp [hfl, h]
          have hd : ((c :: cs).filterMap findLogin).headD "" = t := by
            simp [List.filterMap_cons, hfl]
          rw [hd]
          split
          · rw [credLoop_fst_stable cs _ (by rw [h1]; exact ht)]
            exact h1
          · exact h1

/-- With an empty password field, the scan keeps the first password token
found in the remaining captures. -/
theorem credLoop_snd_empty (caps : List String) :
    ∀ st : String × String, st.2 = "" →
      (credLoop st caps).2 = (caps.filterMap findPassword).headD "" := by
  induction caps with
  | nil => intro st h; simpa [credLoop] using h
  | cons c cs ih =>
      intro st h
      rw [credLoop]
      cases hfp : findPassword c with
      | none =>
          have h1 : (credStep st c).2 = "" := by
            unfold credStep; simp [hfp, h]
          rw [if_pos (Or.inr h1), ih _ h1]
          simp [List.filterMap_cons, hfp]
      | some t =>
          have ht : t ≠ "" := findPassword_ne_empty hfp
          have h1 : (credStep st c).2 = t := by
            unfold credStep; simp [hfp, h]
          have hd : ((c :: cs).filterMap findPassword).headD "" = t := by
            simp [List.filterMap_cons, hfp]
          rw [hd]
          split
          · rw [credLoop_snd_stable cs _ (by rw [h1]; exact ht)]
            exact h1
          · exact h1

theorem parse_proxy_credentials_fst (caps : List String) :
    (parse_proxy_credentials caps).1 = (caps.filterMap findLogin).headD "" :=
  credLoop_fst_empty caps ("", "") rfl

theorem parse_proxy_credentials_snd (caps : List String) :
    (parse_proxy_credentials caps).2 = (caps.filterMap findPassword).headD "" :=
  credLoop_snd_empty caps ("", "") rfl

theorem headD_empty_eq_nil {l : List String} (hne : ∀ t ∈ l, t ≠ "")
    (h : l.headD "" = "") : l = [] := by
  cases l with
  | nil => rfl
  | cons t ts => exact absurd h (hne t (List.mem_cons_self t ts))

/-- Re-running the scan loop from an already-extracted credential state
returns that state unchanged. -/
theorem credLoop_idem (caps : List String) :
    credLoop (parse_proxy_credentials caps) caps = parse_proxy_credentials caps := by
  have hfst : (parse_proxy_credentials caps).1 ≠ "" →
      (credLoop (parse_proxy_credentials caps) caps).1 = (parse_proxy_credentials caps).1 :=
    credLoop_fst_stable caps _
  have hsnd : (parse_proxy_credentials caps).2 ≠ "" →
      (credLoop (parse_proxy_credentials caps) caps).2 = (parse_proxy_credentials caps).2 :=
    credLoop_snd_stable caps _
  have h1 : (credLoop (parse_proxy_credentials caps) caps).1 =
      (parse_proxy_credentials caps).1 := by
    by_cases h : (parse_proxy_credentials caps).1 = ""
    · have hnil : caps.filterMap findLogin = [] := by
        apply headD_empty_eq_nil
        · intro t ht
          rcases List.mem_filterMap.mp ht with ⟨c, -, hc⟩
          exact findLogin_ne_empty hc
        · rw [← parse_proxy_credentials_fst]; exact h
      rw [credLoop_fst_empty caps _ h, h, hnil]
      rfl
    · exact hfst h
  have h2 : (credLoop (parse_proxy_credentials caps) caps).2 =
      (parse_proxy_credentials caps).2 := by
    by_cases h : (parse_proxy_credentials caps).2 = ""
    · have hnil : caps.filterMap findPassword = [] := by
        apply headD_empty_eq_nil
        · intro t ht
          rcases List.mem_filterMap.mp ht with ⟨c, -, hc⟩
          exact findPassword_ne_empty hc
        · rw [← parse_proxy_credentials_snd]; exact h
      rw [credLoop_snd_empty caps _ h, h, hnil]
      rfl
    · exact hsnd h
  exact Prod.ext h1 h2

/-- Membership in the emitted `proxies` list: exactly the entries built from
a parsed server of one of the collected region files. -/
theorem mem_generate_clash_config {rf : List (String × String)}
    {login password : String} {e : ProxyEntry} :
    e ∈ generate_clash_config rf login password ↔
      ∃ rc ∈ rf, ∃ s ∈ parse_proxy_servers rc.2,
        e = mkProxyEntry rc.1 login password s := by
  unfold generate_clash_config
  simp only [List.mem_flatten, List.mem_map]
  constructor
  · rintro ⟨l, ⟨rc, hrc, rfl⟩, hel⟩
    rcases List.mem_map.mp hel with ⟨s, hs, rfl⟩
    exact ⟨rc, hrc, s, hs, rfl⟩
  · rintro ⟨rc, hrc, s, hs, rfl⟩
    exact ⟨(parse_proxy_servers rc.2).map (mkProxyEntry rc.1 login password),
      ⟨rc, hrc, rfl⟩, List.mem_map.mpr ⟨s, hs, rfl⟩⟩

theorem effectiveLogin_ne_empty (creds : String × String) :
    effectiveLogin creds ≠ "" := by
  unfold effectiveLogin
  by_cases h1 : creds.1 = "" <;> by_cases h2 : creds.2 = "" <;> simp [h1, h2]

theorem effectivePassword_ne_empty (creds : String × String) :
    effectivePassword creds ≠ "" := by
  unfold effectivePassword
  by_cases h1 : creds.1 = "" <;> by_cases h2 : creds.2 = "" <;> simp [h1, h2]

theorem effectiveLogin_of_empty {creds : String × String} (h : creds.1 = "") :
    effectiveLogin creds = "default_user" := by
  unfold effectiveLogin
  simp [h]

theorem effectivePassword_of_empty {creds : String × String} (h : creds.2 = "") :
    effectivePassword creds = "default_pass" := by
  unfold effectivePassword
  simp [h]

/-- A candidate line yields a record exactly when the three-field pattern
matches and the port field validates. -/
theorem parseServerLine_isSome (line : String) :
    (parseServerLine line).isSome =
      (recordPatternMatches line && portFieldOk line) := by
  unfold parseServerLine recordPatternMatches portFieldOk
  rcases hs : pySplit ',' line with - | ⟨a, - | ⟨b, - | ⟨c, - | ⟨d, rest⟩⟩⟩⟩ <;>
    simp only [hs]
  · rfl
  · rfl
  · rfl
  · by_cases hpat : (!a.isEmpty && !b.isEmpty && !c.isEmpty) = true
    · rw [if_pos hpat, hpat]
      cases hp : pyInt (pyStrip c) with
      | none => simp
      | some p =>
          by_cases hr : 1 ≤ p ∧ p ≤ 65535
          · simp [hr]
          · simp [hr]
    · rw [if_neg hpat]
      rw [Bool.not_eq_true] at hpat
      rw [hpat]
      rfl
  · rfl

theorem pySplitAux_no_sep {sep : Char} :
    ∀ cs acc : List Char, sep ∉ cs →
      pySplitAux sep cs acc = [acc.reverse ++ cs] := by
  intro cs
  induction cs with
  | nil => intro acc _; simp [pySplitAux]
  | cons c cs ih =>
      intro acc h
      have hc : ¬ c = sep := fun he => h (he ▸ List.mem_cons_self c cs)
      rw [pySplitAux, if_neg hc, ih (c :: acc) (fun hm => h (List.mem_cons_of_mem c hm))]
      simp

/-- A string without newlines is a single line. -/
theorem pySplit_single {line : String} (h : '\n' ∉ line.data) :
    pySplit '\n' line = [line] := by
  unfold pySplit
  rw [pySplitAux_no_sep line.data [] h]
  rfl

/-- On a single already-stripped non-comment line, `parse_proxy_servers` is
exactly the per-line extraction. -/
theorem parse_proxy_servers_single {line : String} (hn : '\n' ∉ line.data)
    (h1 : pyStrip line = line) (h2 : line ≠ "")
    (h3 : pyStartsWith "#" line = false) :
    parse_proxy_servers line = (parseServerLine line).toList := by
  unfold parse_proxy_servers
  rw [pySplit_single hn]
  rw [List.filterMap_cons, List.filterMap_nil]
  dsimp only
  rw [h1]
  rw [if_neg (by simp [h2, h3])]
  cases parseServerLine line <;> rfl

/-- When every collected region parses to zero records, the assembled
`proxies` list is empty. -/
theorem generate_clash_config_nil {rf : List (String × String)}
    {login password : String}
    (h : ∀ rc ∈ rf, parse_proxy_servers rc.2 = []) :
    generate_clash_config rf login password = [] := by
  unfold generate_clash_config
  rw [List.flatten_eq_nil_iff]
  intro l hl
  rcases List.mem_map.mp hl with ⟨rc, hrc, rfl⟩
  rw [h rc hrc]
  rfl

/-- Once at least one region file was collected, the pipeline always runs to
a successful write. -/
theorem run_pipeline_of_ne_nil {rf : List (String × String)} (h : rf ≠ []) :
    run_pipeline rf =
      ⟨true, some (runProxies rf), some (serializeConfig (runProxies rf))⟩ := by
  unfold run_pipeline
  rw [if_neg h]

theorem run_true_ok {env : String → RegionResult} {rf : List (String × String)}
    (h : generate_proxy_configs env = some rf) :
    run true env = run_pipeline rf := by
  unfold run
  rw [h]
  rfl

theorem run_true_none {env : String → RegionResult}
    (h : generate_proxy_configs env = none) :
    run true env = ⟨false, none, none⟩ := by
  unfold run
  rw [h]
  rfl

/-- When the collection loop completes (no region raised), the collected
list is exactly the zero-exit-status regions with their captures, in
order. -/
theorem collectLoop_ok_eq {env : String → RegionResult} :
    ∀ {rs : List String} {rf : List (String × String)},
      collectLoop env rs = some rf →
      rf = rs.filterMap (fun r =>
        if (env r).returncode = 0 then some (r, (env r).output) else none) := by
  intro rs
  induction rs with
  | nil =>
      intro rf h
      cases h
      rfl
  | cons r rs ih =>
      intro rf h
      rw [collectLoop] at h
      split at h
      · cases h
      · split at h
        · cases hc : collectLoop env rs with
          | none => rw [hc] at h; cases h
          | some rest =>
              rw [hc] at h
              cases h
              rename_i hrc
              rw [ih hc]
              simp [List.filterMap_cons, hrc]
        · rename_i hrc
          rw [ih h]
          simp [List.filterMap_cons, hrc]

/-- An exception raised during any region's invocation aborts collection. -/
theorem collectLoop_none_of_raised {env : String → RegionResult} :
    ∀ {rs : List String}, (∃ q ∈ rs, (env q).raised = true) →
      collectLoop env rs = none := by
  intro rs
  induction rs with
  | nil =>
      rintro ⟨q, hq, -⟩
      cases hq
  | cons r rs ih =>
      rintro ⟨q, hq, hraise⟩
      rw [collectLoop]
      rcases List.mem_cons.mp hq with rfl | hq2
      · rw [if_pos hraise]
      · by_cases hr : (env r).raised = true
        · rw [if_pos hr]
        · rw [if_neg hr]
          have hrec := ih ⟨q, hq2, hraise⟩
          split
          · rw [hrec]
            rfl
          · exact hrec

/-- When every region completes with a non-zero exit status, collection
completes with an empty collected set. -/
theorem collectLoop_all_fail {env : String → RegionResult} :
    ∀ {rs : List String},
      (∀ q ∈ rs, (env q).raised = false ∧ (env q).returncode ≠ 0) →
      collectLoop env rs = some [] := by
  intro rs
  induction rs with
  | nil => intro _; rfl
  | cons r rs ih =>
      intro h
      have hr := h r (List.mem_cons_self r rs)
      rw [collectLoop, if_neg (by rw [hr.1]; exact Bool.false_ne_true),
        if_neg hr.2]
      exact ih (fun q hq => h q (List.mem_cons_of_mem r hq))

theorem generate_proxy_configs_ok_eq {env : String → RegionResult}
    {rf : List (String × String)} (h : generate_proxy_configs env = some rf) :
    rf = regions.filterMap (fun r =>
      if (env r).returncode = 0 then some (r, (env r).output) else none) :=
  collectLoop_ok_eq h

theorem mem_generate_proxy_configs {env : String → RegionResult}
    {rf : List (String × String)} (hok : generate_proxy_configs env = some rf)
    {x : String × String} :
    x ∈ rf ↔
      x.1 ∈ regions ∧ (env x.1).returncode = 0 ∧ x.2 = (env x.1).output := by
  rw [generate_proxy_configs_ok_eq hok, List.mem_filterMap]
  constructor
  · rintro ⟨r, hr, hx⟩
    split at hx
    · cases hx
      rename_i hcond
      exact ⟨hr, hcond, rfl⟩
    · cases hx
  · rintro ⟨hr, hrc, hout⟩
    refine ⟨x.1, hr, ?hx⟩
    rw [if_pos hrc, ← hout]

theorem generate_proxy_configs_raised {env : String → RegionResult}
    (h : ∃ q ∈ regions, (env q).raised = true) :
    generate_proxy_configs env = none :=
  collectLoop_none_of_raised h

theorem generate_proxy_configs_all_fail {env : String → RegionResult}
    (h : ∀ q ∈ regions, (env q).raised = false ∧ (env q).returncode ≠ 0) :
    generate_proxy_configs env = some [] :=
  collectLoop_all_fail h

/-! ### Claims -/

/-- C1, counterexample to the claim as stated: in the run on `envDupNames`,
two records of the same region share the base name `挪威-exa` and both are
emitted under exactly that name — the emitted `name` fields contain a
duplicate, and no `-1` suffix is ever appended. -/
theorem claim_C1_counterexample :
    ((run true envDupNames).document.getD []).map ProxyEntry.name =
        ["挪威-exa", "挪威-exa"] ∧
      ¬ (((run true envDupNames).document.getD []).map ProxyEntry.name).Nodup := by
  decide

/-- C1 (amended): every emitted entry's `name` is exactly the region display
label, a hyphen, and the first three characters of the record's host; no
set of already-assigned names is kept and no numeric suffix is ever
appended, so two records in the same region whose hosts share a three-char
prefix are emitted under identical (duplicate) names, as on `envDupNames`. -/
theorem claim_C1 (rf : List (String × String)) (login password : String) :
    (generate_clash_config rf login password).map ProxyEntry.name =
        (rf.map (fun rc => (parse_proxy_servers rc.2).map
          (fun s => region_map rc.1 ++ "-" ++ pyTake 3 s.host))).flatten ∧
      ((run true envDupNames).document.getD []).map ProxyEntry.name =
        ["挪威-exa", "挪威-exa"] := by
  constructor
  · unfold generate_clash_config
    rw [List.map_flatten, List.map_map]
    have hf : (List.map ProxyEntry.name ∘ fun rc : String × String =>
        List.map (mkProxyEntry rc.1 login password) (parse_proxy_servers rc.2)) =
        fun rc : String × String => List.map
          (fun s => region_map rc.1 ++ "-" ++ pyTake 3 s.host)
          (parse_proxy_servers rc.2) := by
      funext rc
      dsimp only [Function.comp]
      rw [List.map_map]
      rfl
    rw [hf]
  · decide

/-- C2, counterexample to the claim as stated: on `envEmptyServers` one
region is collected, zero server records survive, and yet the run writes
the empty document `proxies: []` and exits with status 0. -/
theorem claim_C2_counterexample :
    generate_proxy_configs envEmptyServers = some [("EU", "")] ∧
      parse_proxy_servers "" = [] ∧
      run true envEmptyServers = ⟨true, some [], some "proxies: []\n"⟩ ∧
      exitCode (run true envEmptyServers) = 0 := by
  decide

/-- C2 (amended): if zero server records survive normalization across all
collected regions (collection completed with at least one region), the run
is not fatal: it writes an output document with an empty `proxies` sequence
and exits with status 0. -/
theorem claim_C2 (env : String → RegionResult) (rf : List (String × String))
    (hok : generate_proxy_configs env = some rf) (hne : rf ≠ [])
    (hempty : ∀ rc ∈ rf, parse_proxy_servers rc.2 = []) :
    run true env = ⟨true, some [], some "proxies: []\n"⟩ ∧
      exitCode (run true env) = 0 := by
  have hdoc : runProxies rf = [] := by
    unfold runProxies
    exact generate_clash_config_nil hempty
  rw [run_true_ok hok, run_pipeline_of_ne_nil hne, hdoc]
  exact ⟨rfl, rfl⟩

/-- C2 witness: on `envEmptyServers2` two comment-only regions are
collected and the amended behaviour is exhibited. -/
theorem claim_C2_witness :
    run true envEmptyServers2 = ⟨true, some [], some "proxies: []\n"⟩ ∧
      exitCode (run true envEmptyServers2) = 0 :=
  claim_C2 envEmptyServers2 [("EU", "# placeholder\n"), ("AS", "# placeholder\n")]
    (by decide) (by decide) (by decide)

/-- C3, counterexample to the claim as stated: on `envNoCreds` both
credential fields remain empty after scanning every collected region, yet
the run does not abort: it succeeds with exit status 0 and emits a
document. -/
theorem claim_C3_counterexample :
    generate_proxy_configs envNoCreds = some [("EU", "example.com,1.2.3.4,80\n")] ∧
      parse_proxy_credentials ["example.com,1.2.3.4,80\n"] = ("", "") ∧
      (run true envNoCreds).success = true ∧
      exitCode (run true envNoCreds) = 0 ∧
      (run true envNoCreds).document ≠ none := by
  decide

/-- C3 (amended): if after scanning every collected region either credential
field remains empty, the run is not fatal: it logs a warning, substitutes
placeholder credentials, continues to emission, and exits with status 0. -/
theorem claim_C3 (env : String → RegionResult) (rf : List (String × String))
    (hok : generate_proxy_configs env = some rf) (hne : rf ≠ [])
    (_hmiss :
      (parse_proxy_credentials (rf.map Prod.snd)).1 = "" ∨
      (parse_proxy_credentials (rf.map Prod.snd)).2 = "") :
    (run true env).success = true ∧ exitCode (run true env) = 0 ∧
      (run true env).written ≠ none := by
  rw [run_true_ok hok, run_pipeline_of_ne_nil hne]
  exact ⟨rfl, rfl, by simp⟩

/-- C3 witness: the amended behaviour on `envNoCreds`. -/
theorem claim_C3_witness :
    (run true envNoCreds).success = true ∧ exitCode (run true envNoCreds) = 0 ∧
      (run true envNoCreds).written ≠ none :=
  claim_C3 envNoCreds [("EU", "example.com,1.2.3.4,80\n")] (by decide)
    (by decide) (by decide)

/-- C4, counterexample to the claim as stated: the line
`example.com,1.2.3.4,notaport` consists of exactly three comma-separated
non-empty fields (the pattern matches), yet no `ServerRecord` is produced —
the claimed equivalence omits the port validation. -/
theorem claim_C4_counterexample :
    recordPatternMatches "example.com,1.2.3.4,notaport" = true ∧
      parse_proxy_servers "example.com,1.2.3.4,notaport" = [] := by
  decide

/-- C4 (amended): a stripped, non-empty, non-comment line produces a
`ServerRecord` iff it consists of exactly three comma-separated non-empty
fields AND its third field parses as a base-10 integer in [1, 65535];
wrong-field-count lines are silently skipped, so a region with one valid
line and one comma-less line yields exactly one record. -/
theorem claim_C4 (line : String) (hn : '\n' ∉ line.data)
    (h1 : pyStrip line = line) (h2 : line ≠ "")
    (h3 : pyStartsWith "#" line = false) :
    parse_proxy_servers line = (parseServerLine line).toList ∧
      (parseServerLine line).isSome =
        (recordPatternMatches line && portFieldOk line) ∧
      parse_proxy_servers "example.com,203.0.113.5,8080\nbad-line-no-commas" =
        [⟨"example.com", "203.0.113.5", 8080⟩] :=
  ⟨parse_proxy_servers_single hn h1 h2 h3, parseServerLine_isSome line, by decide⟩

/-- C4 witness: the amended equivalence at the valid line of scenario B. -/
theorem claim_C4_witness :
    parse_proxy_servers "example.com,203.0.113.5,8080" =
        (parseServerLine "example.com,203.0.113.5,8080").toList ∧
      (parseServerLine "example.com,203.0.113.5,8080").isSome =
        (recordPatternMatches "example.com,203.0.113.5,8080" &&
          portFieldOk "example.com,203.0.113.5,8080") ∧
      parse_proxy_servers "example.com,203.0.113.5,8080\nbad-line-no-commas" =
        [⟨"example.com", "203.0.113.5", 8080⟩] :=
  claim_C4 "example.com,203.0.113.5,8080" (by decide) (by decide) (by decide)
    (by decide)

/-- C5: every record surviving normalization has its port in [1, 65535]
(the parse is a total function, so an invalid port can only drop the
record, never halt the run); a port-99999 record is dropped while the
valid record of the same capture survives, and the run on such a capture
still succeeds. -/
theorem claim_C5 (content : String) (r : ServerRecord)
    (h : r ∈ parse_proxy_servers content) :
    (1 ≤ r.port ∧ r.port ≤ 65535) ∧
      parse_proxy_servers "a.com,1.1.1.1,99999\nb.com,2.2.2.2,8080" =
        [⟨"b.com", "2.2.2.2", 8080⟩] ∧
      (run true envPort99999).success = true ∧
      exitCode (run true envPort99999) = 0 :=
  ⟨mem_parse_proxy_servers_port h, by decide, by decide, by decide⟩

/-- C5 witness: the surviving record of scenario D. -/
theorem claim_C5_witness :
    (1 ≤ (ServerRecord.mk "b.com" "2.2.2.2" 8080).port ∧
        (ServerRecord.mk "b.com" "2.2.2.2" 8080).port ≤ 65535) ∧
      parse_proxy_servers "a.com,1.1.1.1,99999\nb.com,2.2.2.2,8080" =
        [⟨"b.com", "2.2.2.2", 8080⟩] ∧
      (run true envPort99999).success = true ∧
      exitCode (run true envPort99999) = 0 :=
  claim_C5 "a.com,1.1.1.1,99999\nb.com,2.2.2.2,8080"
    ⟨"b.com", "2.2.2.2", 8080⟩ (by decide)

/-- C6, counterexample to the claim as stated: on `envOneRaises` only
region EU's invocation raises, while region AS would complete successfully
with a valid record — yet collection does not continue: the exception
propagates (the `except subprocess.CalledProcessError` handler is dead
code since `subprocess.run` is called without `check=True`), the whole run
aborts with exit status 1 and nothing is emitted, instead of skipping EU
and emitting AS's record. -/
theorem claim_C6_counterexample :
    (envOneRaises "EU").raised = true ∧
      (envOneRaises "AS").raised = false ∧
      (envOneRaises "AS").returncode = 0 ∧
      parse_proxy_servers (envOneRaises "AS").output =
        [⟨"a.com", "1.1.1.1", 80⟩] ∧
      generate_proxy_configs envOneRaises = none ∧
      run true envOneRaises = ⟨false, none, none⟩ ∧
      exitCode (run true envOneRaises) = 1 := by
  decide

/-- C6 (amended): a region invocation that completes with a non-zero exit
status is non-fatal — that region is skipped and collection continues, and
successfully completing regions are still collected; but a thrown
invocation error for any single region is fatal: it is not caught (the
`CalledProcessError` handler never fires) and aborts the entire run with
exit status 1 and no output written; likewise, when every region completes
with a non-zero exit status, no region succeeds and the run aborts with
exit status 1 and no output written. -/
theorem claim_C6 (env : String → RegionResult) (r : String) (hr : r ∈ regions) :
    (((env r).raised = false ∧ (env r).returncode ≠ 0) →
        ∀ rf, generate_proxy_configs env = some rf → ∀ x ∈ rf, x.1 ≠ r) ∧
      (((env r).raised = false ∧ (env r).returncode = 0) →
        ∀ rf, generate_proxy_configs env = some rf → (r, (env r).output) ∈ rf) ∧
      ((env r).raised = true →
        generate_proxy_configs env = none ∧
        run true env = ⟨false, none, none⟩ ∧ exitCode (run true env) = 1) ∧
      ((∀ q ∈ regions, (env q).raised = false ∧ (env q).returncode ≠ 0) →
        run true env = ⟨false, none, none⟩ ∧ exitCode (run true env) = 1) := by
  refine ⟨?p1, ?p2, ?p3, ?p4⟩
  case p1 =>
    rintro ⟨-, hrc⟩ rf hok x hx hx1
    rcases (mem_generate_proxy_configs hok).mp hx with ⟨-, hxrc, -⟩
    rw [hx1] at hxrc
    exact hrc hxrc
  case p2 =>
    rintro ⟨-, hrc⟩ rf hok
    exact (mem_generate_proxy_configs hok).mpr ⟨hr, hrc, rfl⟩
  case p3 =>
    intro hraise
    have hnone := generate_proxy_configs_raised ⟨r, hr, hraise⟩
    rw [run_true_none hnone]
    exact ⟨hnone, rfl, rfl⟩
  case p4 =>
    intro hall
    rw [run_true_ok (generate_proxy_configs_all_fail hall)]
    exact ⟨rfl, rfl⟩

/-- C6 witness: on `envAllFail` every region completes with a non-zero exit
status and the run aborts with nothing written. -/
theorem claim_C6_witness :
    run true envAllFail = ⟨false, none, none⟩ ∧
      exitCode (run true envAllFail) = 1 :=
  (claim_C6 envAllFail "EU" (by decide)).2.2.2 (by decide)

/-- C7: the extracted login (resp. password) is the first login (resp.
password) token found scanning the captures in region iteration order —
later regions' credential lines are ignored — and re-running the scan loop
from the extracted state leaves it unchanged (first-match-wins is
idempotent). -/
theorem claim_C7 (caps : List String) :
    (parse_proxy_credentials caps).1 = (caps.filterMap findLogin).headD "" ∧
      (parse_proxy_credentials caps).2 = (caps.filterMap findPassword).headD "" ∧
      credLoop (parse_proxy_credentials caps) caps = parse_proxy_credentials caps :=
  ⟨parse_proxy_credentials_fst caps, parse_proxy_credentials_snd caps,
    credLoop_idem caps⟩

/-- C8: every emitted entry is built 1:1 from a surviving record of a
collected region: type `http`, tls on, cert-verify not skipped, server the
record's ip, port the record's parsed port, sni the record's host, and the
single global credential pair as username/password; in the scenario-A run
all three entries share `user1`/`pass1`. -/
theorem claim_C8 (rf : List (String × String)) (login password : String)
    (e : ProxyEntry) (he : e ∈ generate_clash_config rf login password) :
    (e.type = "http" ∧ e.tls = true ∧ e.skipCertVerify = false ∧
        e.username = login ∧ e.password = password ∧
        ∃ rc ∈ rf, ∃ s ∈ parse_proxy_servers rc.2,
          e = mkProxyEntry rc.1 login password s ∧
          e.server = s.ip ∧ e.port = s.port ∧ e.sni = s.host) ∧
      ((run true envScenarioA).document.getD []).map
          (fun x => (x.username, x.password)) =
        [("user1", "pass1"), ("user1", "pass1"), ("user1", "pass1")] := by
  constructor
  · rcases mem_generate_clash_config.mp he with ⟨rc, hrc, s, hs, rfl⟩
    exact ⟨rfl, rfl, rfl, rfl, rfl, rc, hrc, s, hs, rfl, rfl, rfl, rfl⟩
  · decide

/-- C8 witness: the entry for `example.com,1.2.3.4,80` carries the fixed
fields and the supplied credentials. -/
theorem claim_C8_witness :
    e8.type = "http" ∧ e8.tls = true ∧ e8.skipCertVerify = false ∧
      e8.username = "user1" ∧ e8.password = "pass1" := by
  have h := (claim_C8 [("EU", "example.com,1.2.3.4,80")] "user1" "pass1" e8
    (by decide)).1
  exact ⟨h.1, h.2.1, h.2.2.1, h.2.2.2.1, h.2.2.2.2.1⟩

/-- C9: the pipeline after collection is a deterministic function of the
collected RawCaptures — two runs whose collected region files coincide
produce the same outcome, including the same document and byte-identical
serialized output. -/
theorem claim_C9 (env1 env2 : String → RegionResult)
    (h : generate_proxy_configs env1 = generate_proxy_configs env2) :
    run true env1 = run true env2 := by
  unfold run
  rw [h]

/-- C9 witness: `env9a` and `env9b` differ (on an unused region code) but
collect identical captures, and their runs coincide byte-for-byte. -/
theorem claim_C9_witness : run true env9a = run true env9b :=
  claim_C9 env9a env9b (by decide)

/-- C10: every entry of an emitted document has non-empty username and
password; when the extracted login (resp. password) is empty, the emitted
username is the placeholder `default_user` (resp. `default_pass`),
substituted independently per field. -/
theorem claim_C10 (env : String → RegionResult) (rf : List (String × String))
    (doc : List ProxyEntry) (e : ProxyEntry)
    (hok : generate_proxy_configs env = some rf)
    (hdoc : (run true env).document = some doc) (he : e ∈ doc) :
    e.username ≠ "" ∧ e.password ≠ "" ∧
      ((parse_proxy_credentials (rf.map Prod.snd)).1 = "" →
        e.username = "default_user") ∧
      ((parse_proxy_credentials (rf.map Prod.snd)).2 = "" →
        e.password = "default_pass") := by
  rw [run_true_ok hok] at hdoc
  by_cases hrf : rf = []
  · rw [hrf] at hdoc
    cases hdoc
  · rw [run_pipeline_of_ne_nil hrf] at hdoc
    have hdd : runProxies rf = doc := Option.some.inj hdoc
    rw [← hdd] at he
    unfold runProxies at he
    rcases mem_generate_clash_config.mp he with ⟨rc, hrc, s, hs, rfl⟩
    refine ⟨effectiveLogin_ne_empty _, effectivePassword_ne_empty _, ?d1, ?d2⟩
    case d1 => intro hl; exact effectiveLogin_of_empty hl
    case d2 => intro hp; exact effectivePassword_of_empty hp

/-- C10 witness: on `envNoCreds` both placeholders are substituted and the
emitted entry's credential fields are non-empty. -/
theorem claim_C10_witness :
    e10.username ≠ "" ∧ e10.password ≠ "" ∧
      e10.username = "default_user" ∧ e10.password = "default_pass" := by
  have h := claim_C10 envNoCreds [("EU", "example.com,1.2.3.4,80\n")] [e10] e10
    (by decide) (by decide) (by decide)
  exact ⟨h.1, h.2.1, h.2.2.1 (by decide), h.2.2.2 (by decide)⟩

end ProxyConfig
